import Mathlib

/-!
Shallow embedding of the status-polling engine of the ts-monitor service
(`src/server.ts` variant with live status polling): the result classifier,
the retry controller `checkToolStatus`, the sweep loop `checkAllToolsStatus`,
and the in-memory status store, together with theorems about the properties
of the classifier, retry schedule, pacing, telemetry emission and store
invariants.
-/

namespace TsMonitor

/-- Health verdict taxonomy, from `ToolStatus['status']`:
`'healthy' | 'degraded' | 'down' | 'unknown'`. -/
inductive Verdict where
  | healthy
  | degraded
  | down
  | unknown
deriving DecidableEq, Repr

/-- Result of one `checkToolStatus` call: `{ status, latencyMs, error? }`.
`latencyMs` is `none` when no response was obtained; `error` is the optional
diagnostic string. -/
structure PollOutcome where
  status : Verdict
  latencyMs : Option Nat
  error : Option String
deriving DecidableEq, Repr

/-- Abstraction of `await response.json()` on a 2xx response: either the body
fails to parse (the `catch` at line 139), or it yields a JSON object from
which `data.status?.indicator` (an optional string) and
`data.status?.description || ''` (a string, empty when absent) are read. -/
inductive Body where
  | parseError
  | parsed (indicator : Option String) (description : String)
deriving DecidableEq, Repr

/-- Outcome of one `fetch` attempt: either a completed HTTP response with its
status code, measured elapsed time and body, or a thrown transport failure
carrying the error message (the `catch` at line 159). -/
inductive Attempt where
  | completed (httpStatus : Nat) (elapsedMs : Nat) (body : Body)
  | failed (errorMessage : String)
deriving DecidableEq, Repr

/-- The constant `MAX_RETRIES = 2` (line 70). -/
def MAX_RETRIES : Nat := 2

/-- The constant `CHECK_DELAY_MS = 2000` (line 67). -/
def CHECK_DELAY_MS : Nat := 2000

/-- JS `haystack.startsWith(needle)` on character lists: auxiliary for
`strIncludes`. -/
def startsWithChars : List Char → List Char → Bool
  | [], _ => true
  | _ :: _, [] => false
  | n :: ns, h :: hs => n == h && startsWithChars ns hs

/-- Occurrence of `needle` in some suffix of the haystack. -/
def occursIn (needle : List Char) : List Char → Bool
  | [] => needle.isEmpty
  | c :: cs => startsWithChars needle (c :: cs) || occursIn needle cs

/-- JS `s.includes(needle)`: substring containment. -/
def strIncludes (s needle : String) : Bool :=
  occursIn needle.data s.data

/-- Classification of a completed HTTP response (lines 103-158 of
`checkToolStatus`): `response.ok` (status 200-299) enters the JSON branch,
then the `status.indicator` chain; otherwise 429, then `>= 500`, then the
residual non-2xx branch. -/
def classifyResponse (httpStatus elapsedMs : Nat) (body : Body) : PollOutcome :=
  if 200 ≤ httpStatus ∧ httpStatus ≤ 299 then
    match body with
    | Body.parseError =>
      ⟨Verdict.unknown, some elapsedMs, some "Failed to parse status API response"⟩
    | Body.parsed indicator description =>
      if indicator = some "none" then
        ⟨if elapsedMs > 2000 then Verdict.degraded else Verdict.healthy, some elapsedMs, none⟩
      else if indicator = some "minor" then
        ⟨Verdict.degraded, some elapsedMs,
          some (if description = "" then "Minor service outage" else description)⟩
      else if indicator = some "major" ∨ indicator = some "critical" then
        ⟨Verdict.down, some elapsedMs,
          some (if description = "" then "Service status: " ++ indicator.getD "" else description)⟩
      else if indicator = some "partial" then
        ⟨Verdict.degraded, some elapsedMs,
          some (if description = "" then "Partial outage detected" else description)⟩
      else
        ⟨if elapsedMs > 2000 then Verdict.degraded else Verdict.healthy, some elapsedMs, none⟩
  else if httpStatus = 429 then
    ⟨Verdict.degraded, some elapsedMs, some "Rate limited - too many requests"⟩
  else if 500 ≤ httpStatus then
    ⟨Verdict.down, some elapsedMs, some ("Server error: " ++ toString httpStatus)⟩
  else
    ⟨Verdict.down, some elapsedMs, some ("HTTP " ++ toString httpStatus)⟩

/-- The error-message classification of lines 164-171: `'aborted'`/`'timeout'`
become "Request timeout", `'ECONNREFUSED'`/`'ENOTFOUND'` become
"Connection failed", anything else passes through. -/
def classifyErrorMessage (errorMessage : String) : String :=
  if strIncludes errorMessage "aborted" || strIncludes errorMessage "timeout" then
    "Request timeout"
  else if strIncludes errorMessage "ECONNREFUSED" || strIncludes errorMessage "ENOTFOUND" then
    "Connection failed"
  else
    errorMessage

/-- Final outcome after retries are exhausted (lines 179-184): degraded with
null latency if the classified error text mentions rate limiting or 429,
otherwise down with null latency. -/
def exhaustedOutcome (lastError : String) : PollOutcome :=
  if strIncludes lastError "Rate limited" || strIncludes lastError "429" then
    ⟨Verdict.degraded, none, some lastError⟩
  else
    ⟨Verdict.down, none, some lastError⟩

/-- Observable events of one `checkToolStatus` call: `attemptEv i` marks the
fetch of attempt number `i` (the `retryCount` of that call), `delayEv ms`
marks an `await delay(ms)` backoff. -/
inductive PollEvent where
  | attemptEv (idx : Nat)
  | delayEv (ms : Nat)
deriving DecidableEq, Repr

/-- Body of `checkToolStatus` (lines 78-186). The environment is modelled by
`attempt`, giving the outcome of the fetch performed with each `retryCount`.
The source recursion guards on `retryCount < MAX_RETRIES`; here the structural
argument `retriesLeft` carries `MAX_RETRIES - retryCount`, so
`retryCount < MAX_RETRIES` exactly when `retriesLeft` is a successor.
A completed response is classified and returned at once; a thrown transport
failure either backs off `1000 * (retryCount + 1)` ms and retries, or, with
retries exhausted, returns `exhaustedOutcome` of its classified message.
The second component records the attempt/delay events in order. -/
def checkToolStatusGo (attempt : Nat → Attempt) :
    (retryCount : Nat) → (retriesLeft : Nat) → PollOutcome × List PollEvent
  | retryCount, retriesLeft =>
    match attempt retryCount with
    | Attempt.completed httpStatus elapsedMs body =>
      (classifyResponse httpStatus elapsedMs body, [PollEvent.attemptEv retryCount])
    | Attempt.failed msg =>
      match retriesLeft with
      | r + 1 =>
        let rest := checkToolStatusGo attempt (retryCount + 1) r
        (rest.1,
          PollEvent.attemptEv retryCount ::
            PollEvent.delayEv (1000 * (retryCount + 1)) :: rest.2)
      | 0 => (exhaustedOutcome (classifyErrorMessage msg), [PollEvent.attemptEv retryCount])

/-- Entry point `checkToolStatus(config)`: starts with `retryCount = 0`. -/
def checkToolStatus (attempt : Nat → Attempt) : PollOutcome × List PollEvent :=
  checkToolStatusGo attempt 0 MAX_RETRIES

/-- Model of `ToolConfig` (lines 24-28): identifier, display name, endpoint URL. -/
structure ToolConfig where
  id : String
  name : String
  statusUrl : String
deriving DecidableEq, Repr

/-- The fixed target registry `toolConfigs` (lines 30-46), in source order. -/
def toolConfigs : List ToolConfig :=
  [⟨"chatgpt", "ChatGPT", "https://status.openai.com/api/v2/status.json"⟩,
   ⟨"claude", "Claude", "https://status.claude.com/api/v2/status.json"⟩,
   ⟨"cursor", "Cursor", "https://status.cursor.com/api/v2/status.json"⟩]

/-- Model of `ToolStatus` (lines 15-22): one store record. `lastChecked` is the
timestamp of the last check, modelled as a `Nat`. -/
structure ToolStatus where
  id : String
  name : String
  status : Verdict
  lastChecked : Nat
  latencyMs : Option Nat
  error : Option String
deriving DecidableEq, Repr

/-- Initialization of the in-memory store `tools` (lines 58-64): one record
per config, verdict unknown, latency null, timestamp the process start. -/
def initialTools (startTime : Nat) : List ToolStatus :=
  toolConfigs.map (fun config =>
    ⟨config.id, config.name, Verdict.unknown, startTime, none, none⟩)

/-- Store write on the success path (lines 208-213): `findIndex` on the id,
replace the first record with that id in place, append when absent. -/
def updateTools : List ToolStatus → ToolStatus → List ToolStatus
  | [], updatedTool => [updatedTool]
  | t :: rest, updatedTool =>
    if t.id == updatedTool.id then updatedTool :: rest
    else t :: updateTools rest updatedTool

/-- Store write on the catch path (lines 256-264): `findIndex` on the id and,
when present, replace the first record with that id by a copy that changes
only `status` (to unknown), `lastChecked` and `error`; no-op when absent. -/
def catchUpdate : List ToolStatus → String → Nat → String → List ToolStatus
  | [], _, _, _ => []
  | t :: rest, toolId, now, msg =>
    if t.id == toolId then
      { t with status := Verdict.unknown, lastChecked := now, error := some msg } :: rest
    else t :: catchUpdate rest toolId now msg

/-- Behaviour of the awaited `checkToolStatus(config)` call for one target in
one sweep: either it resolves to a `PollOutcome`, or it throws with a
message (the unexpected-exception path of the sweep's `catch`). -/
inductive TargetBehavior where
  | returns (result : PollOutcome)
  | throws (msg : String)
deriving DecidableEq, Repr

/-- Telemetry and pacing events emitted by one sweep iteration:
`statusUpdateEvent` is `newrelic.recordCustomEvent('ToolStatusUpdate', ...)`
(lines 216-222, with `latencyMs ?? 0` and `hasError: !!error`),
`errorLogEvent` the `console.error` at line 226, `toolDownError` the
`newrelic.noticeError` at line 238 carrying `previousStatus`, `pacingDelay`
the `await delay(CHECK_DELAY_MS)` at line 251, and `catchErrorLog` the
`console.error` of the catch block at line 254. -/
inductive SweepEvent where
  | statusUpdateEvent (toolId : String) (status : Verdict) (latencyMs : Nat) (hasError : Bool)
  | errorLogEvent (toolId : String)
  | toolDownError (toolId : String) (previousStatus : Verdict)
  | pacingDelay (ms : Nat)
  | catchErrorLog (toolId : String)
deriving DecidableEq, Repr

/-- One iteration of the sweep loop (lines 191-265) for `config`, given the
current store `tools` and whether this is the last target
(`i < toolConfigs.length - 1` is false). Returns the new store and the events
of the iteration in order. On the `returns` path: read the previous status
(`existingTool?.status || 'unknown'`), build the updated record, write it,
emit the status-update event, emit the error log when down or an error is
present plus the down report when down, and emit the pacing delay unless
last. On the `throws` path the catch runs: log and write the unknown record;
the pacing delay inside the `try` is skipped. -/
def sweepTarget (behavior : String → TargetBehavior) (now : Nat) (config : ToolConfig)
    (tools : List ToolStatus) (isLast : Bool) : List ToolStatus × List SweepEvent :=
  match behavior config.id with
  | TargetBehavior.returns result =>
    let oldStatus := ((tools.find? (fun t => t.id == config.id)).map ToolStatus.status).getD
      Verdict.unknown
    let updatedTool : ToolStatus :=
      ⟨config.id, config.name, result.status, now, result.latencyMs, result.error⟩
    (updateTools tools updatedTool,
      SweepEvent.statusUpdateEvent config.id result.status (result.latencyMs.getD 0)
          result.error.isSome ::
        ((if result.status = Verdict.down ∨ result.error.isSome then
            SweepEvent.errorLogEvent config.id ::
              (if result.status = Verdict.down then
                [SweepEvent.toolDownError config.id oldStatus]
              else [])
          else []) ++
          (if isLast then [] else [SweepEvent.pacingDelay CHECK_DELAY_MS])))
  | TargetBehavior.throws msg =>
    (catchUpdate tools config.id now msg, [SweepEvent.catchErrorLog config.id])

/-- The sweep loop of `checkAllToolsStatus` (lines 189-267) over a remaining
config list: one `sweepTarget` per config, threading the store, collecting
each iteration's events as a block labelled by the target id. A target is
last exactly when the remaining tail is empty. -/
def checkAllToolsAux (behavior : String → TargetBehavior) (now : Nat) :
    List ToolConfig → List ToolStatus → List ToolStatus × List (String × List SweepEvent)
  | [], tools => (tools, [])
  | config :: rest, tools =>
    let step := sweepTarget behavior now config tools rest.isEmpty
    let restRun := checkAllToolsAux behavior now rest step.1
    (restRun.1, (config.id, step.2) :: restRun.2)

/-- Entry point `checkAllToolsStatus()`: one sweep over the full registry. -/
def checkAllToolsStatus (behavior : String → TargetBehavior) (now : Nat)
    (tools : List ToolStatus) : List ToolStatus × List (String × List SweepEvent) :=
  checkAllToolsAux behavior now toolConfigs tools

/-- The record written by the catch path for a previous record `old`. -/
def catchRecord (old : ToolStatus) (now : Nat) (msg : String) : ToolStatus :=
  { old with status := Verdict.unknown, lastChecked := now, error := some msg }

/-- Predicate picking out the pacing-delay events of a sweep iteration. -/
def isPacingEv : SweepEvent → Bool
  | SweepEvent.pacingDelay _ => true
  | _ => false

/-- A sweep environment in which the first target's poll throws and the
others resolve healthy; exercises the catch path of the sweep loop. -/
def throwsFirstBehavior : String → TargetBehavior :=
  fun toolId =>
    if toolId == "chatgpt" then TargetBehavior.throws "boom"
    else TargetBehavior.returns ⟨Verdict.healthy, some 100, none⟩

/-- A sweep environment in which every poll resolves down with an error. -/
def alwaysDownBehavior : String → TargetBehavior :=
  fun _ => TargetBehavior.returns ⟨Verdict.down, some 100, some "boom"⟩

/-- The store after one sweep of `alwaysDownBehavior` from the initial
store: every record is down. -/
def storeAfterDownSweep : List ToolStatus :=
  (checkAllToolsStatus alwaysDownBehavior 1 (initialTools 0)).1

/-- A sweep environment in which the middle target (claude) throws and the
others resolve healthy. -/
def throwsClaudeBehavior : String → TargetBehavior :=
  fun toolId =>
    if toolId == "claude" then TargetBehavior.throws "claude poll blew up"
    else TargetBehavior.returns ⟨Verdict.healthy, some 120, none⟩

/-- The pacing discipline the corrected claim asserts of a sweep's blocks:
every non-final block of a target whose poll completed without throwing ends
with exactly one 2000 ms pacing delay as its last event (so the delay falls
before the next target's poll); the final block, and every block of a target
whose poll threw, contains no pacing delay. -/
def PacingSpec (behavior : String → TargetBehavior) :
    List (String × List SweepEvent) → Prop
  | [] => True
  | [(_, evs)] => evs.countP isPacingEv = 0
  | (tid, evs) :: blk :: rest =>
    (match behavior tid with
     | TargetBehavior.returns _ =>
       evs.countP isPacingEv = 1 ∧
         evs.getLast? = some (SweepEvent.pacingDelay CHECK_DELAY_MS)
     | TargetBehavior.throws _ => evs.countP isPacingEv = 0) ∧
    PacingSpec behavior (blk :: rest)

/-- A `find?` over a cons whose head satisfies the predicate. -/
theorem find?_head_true {α : Type} (p : α → Bool) (t : α) (l : List α) (h : p t = true) :
    List.find? p (t :: l) = some t := by
  simp [List.find?, h]

/-- A `find?` over a cons whose head fails the predicate. -/
theorem find?_head_false {α : Type} (p : α → Bool) (t : α) (l : List α) (h : p t = false) :
    List.find? p (t :: l) = List.find? p l := by
  simp [List.find?, h]

/-- The write `updateTools` leaves the record stored under the updated id equal to the
updated record: the first record with that id is replaced in place (or the
record is appended when the id is absent). -/
theorem find?_updateTools_self (tools : List ToolStatus) (u : ToolStatus) :
    (updateTools tools u).find? (fun t => t.id == u.id) = some u := by
  induction tools with
  | nil =>
    simp only [updateTools]
    exact find?_head_true _ u [] (by simp)
  | cons t rest ih =>
    by_cases h : (t.id == u.id) = true
    · simp only [updateTools, h, ite_true]
      exact find?_head_true _ u rest (by simp)
    · have h' : (t.id == u.id) = false := by simpa using h
      simp only [updateTools, h', Bool.false_eq_true, ite_false]
      rw [find?_head_false _ t _ h']
      exact ih

/-- The write `updateTools` does not touch records stored under any other id. -/
theorem find?_updateTools_ne (tools : List ToolStatus) (u : ToolStatus) (x : String)
    (hx : x ≠ u.id) :
    (updateTools tools u).find? (fun t => t.id == x) = tools.find? (fun t => t.id == x) := by
  have hux : (u.id == x) = false := beq_eq_false_iff_ne.mpr (Ne.symm hx)
  induction tools with
  | nil =>
    simp only [updateTools]
    rw [find?_head_false _ u [] hux]
  | cons t rest ih =>
    by_cases h : (t.id == u.id) = true
    · have ht : t.id = u.id := by simpa using h
      have htx : (t.id == x) = false := by rw [ht]; exact hux
      simp only [updateTools, h, ite_true]
      rw [find?_head_false _ u rest hux, find?_head_false _ t rest htx]
    · have h' : (t.id == u.id) = false := by simpa using h
      simp only [updateTools, h', Bool.false_eq_true, ite_false]
      by_cases hm : (t.id == x) = true
      · rw [find?_head_true _ t _ hm, find?_head_true _ t rest hm]
      · have hm' : (t.id == x) = false := by simpa using hm
        rw [find?_head_false _ t _ hm', find?_head_false _ t rest hm']
        exact ih

/-- When the updated id is already stored, `updateTools` preserves the list
of stored ids: no record is added, deleted or reordered. -/
theorem map_id_updateTools (tools : List ToolStatus) (u : ToolStatus)
    (h : tools.any (fun t => t.id == u.id) = true) :
    (updateTools tools u).map ToolStatus.id = tools.map ToolStatus.id := by
  induction tools with
  | nil => simp at h
  | cons t rest ih =>
    by_cases hh : (t.id == u.id) = true
    · have ht : t.id = u.id := by simpa using hh
      simp [updateTools, hh, ht]
    · simp only [List.any_cons, Bool.or_eq_true] at h
      rcases h with h | h
      · exact absurd h hh
      · simp [updateTools, hh, ih h]

/-- The catch-path write replaces the stored record under the caught target's
id by `catchRecord` of the previous record. -/
theorem find?_catchUpdate_self (tools : List ToolStatus) (cid : String) (now : Nat)
    (msg : String) (old : ToolStatus)
    (h : tools.find? (fun t => t.id == cid) = some old) :
    (catchUpdate tools cid now msg).find? (fun t => t.id == cid) =
      some (catchRecord old now msg) := by
  induction tools with
  | nil => simp at h
  | cons t rest ih =>
    by_cases hh : (t.id == cid) = true
    · rw [find?_head_true _ t rest hh] at h
      cases h
      simp only [catchUpdate, hh, ite_true]
      exact find?_head_true _ _ rest hh
    · have hh' : (t.id == cid) = false := by simpa using hh
      rw [find?_head_false _ t rest hh'] at h
      simp only [catchUpdate, hh', Bool.false_eq_true, ite_false]
      rw [find?_head_false _ t _ hh']
      exact ih h

/-- The catch-path write does not touch records stored under any other id. -/
theorem find?_catchUpdate_ne (tools : List ToolStatus) (cid : String) (now : Nat)
    (msg : String) (x : String) (hx : x ≠ cid) :
    (catchUpdate tools cid now msg).find? (fun t => t.id == x) =
      tools.find? (fun t => t.id == x) := by
  have hcx : (cid == x) = false := beq_eq_false_iff_ne.mpr (Ne.symm hx)
  induction tools with
  | nil => simp [catchUpdate]
  | cons t rest ih =>
    by_cases hh : (t.id == cid) = true
    · have ht : t.id = cid := by simpa using hh
      have htx : (t.id == x) = false := by rw [ht]; exact hcx
      simp only [catchUpdate, hh, ite_true]
      rw [find?_head_false _ _ rest htx, find?_head_false _ t rest htx]
    · have hh' : (t.id == cid) = false := by simpa using hh
      simp only [catchUpdate, hh', Bool.false_eq_true, ite_false]
      by_cases hm : (t.id == x) = true
      · rw [find?_head_true _ t _ hm, find?_head_true _ t rest hm]
      · have hm' : (t.id == x) = false := by simpa using hm
        rw [find?_head_false _ t _ hm', find?_head_false _ t rest hm']
        exact ih

/-- The catch-path write always preserves the list of stored ids. -/
theorem map_id_catchUpdate (tools : List ToolStatus) (cid : String) (now : Nat)
    (msg : String) :
    (catchUpdate tools cid now msg).map ToolStatus.id = tools.map ToolStatus.id := by
  induction tools with
  | nil => rfl
  | cons t rest ih =>
    by_cases hh : (t.id == cid) = true
    · simp [catchUpdate, hh]
    · simp [catchUpdate, hh, ih]

/-- Every record after a catch-path write keeps the identifier, display name
and latency of a record of the previous store. -/
theorem mem_catchUpdate_shape (tools : List ToolStatus) (cid : String) (now : Nat)
    (msg : String) :
    ∀ rec ∈ catchUpdate tools cid now msg, ∃ rec0, rec0 ∈ tools ∧
      rec.id = rec0.id ∧ rec.name = rec0.name ∧ rec.latencyMs = rec0.latencyMs := by
  induction tools with
  | nil => simp [catchUpdate]
  | cons t rest ih =>
    intro rec hrec
    by_cases hh : (t.id == cid) = true
    · simp only [catchUpdate, hh, ite_true, List.mem_cons] at hrec
      rcases hrec with rfl | hrec
      · exact ⟨t, List.mem_cons_self t rest, rfl, rfl, rfl⟩
      · exact ⟨rec, List.mem_cons_of_mem t hrec, rfl, rfl, rfl⟩
    · simp only [catchUpdate, hh, Bool.false_eq_true, ite_false, List.mem_cons] at hrec
      rcases hrec with rfl | hrec
      · exact ⟨rec, List.mem_cons_self rec rest, rfl, rfl, rfl⟩
      · rcases ih rec hrec with ⟨rec0, hmem, hprops⟩
        exact ⟨rec0, List.mem_cons_of_mem t hmem, hprops⟩

/-- Containment of an id in a store depends only on the stored id list. -/
theorem any_id_eq_of_map_id_eq (l1 : List ToolStatus) : ∀ (l2 : List ToolStatus) (x : String),
    l1.map ToolStatus.id = l2.map ToolStatus.id →
    l1.any (fun t => t.id == x) = l2.any (fun t => t.id == x) := by
  induction l1 with
  | nil =>
    intro l2 x h
    cases l2 with
    | nil => rfl
    | cons s rest2 => simp at h
  | cons t rest ih =>
    intro l2 x h
    cases l2 with
    | nil => simp at h
    | cons s rest2 =>
      simp only [List.map_cons, List.cons.injEq] at h
      simp [List.any_cons, h.1, ih rest2 x h.2]

/-- A sweep iteration preserves the list of stored ids whenever the target's
id is already stored. -/
theorem map_id_sweepTarget (b : String → TargetBehavior) (n : Nat) (c : ToolConfig)
    (tools : List ToolStatus) (isLast : Bool)
    (h : tools.any (fun t => t.id == c.id) = true) :
    (sweepTarget b n c tools isLast).1.map ToolStatus.id = tools.map ToolStatus.id := by
  cases hb : b c.id with
  | returns r =>
    simp only [sweepTarget, hb]
    exact map_id_updateTools tools _ h
  | throws m =>
    simp only [sweepTarget, hb]
    exact map_id_catchUpdate tools c.id n m

/-- A sweep iteration does not touch records stored under any id other than
its target's. -/
theorem find?_sweepTarget_ne (b : String → TargetBehavior) (n : Nat) (c : ToolConfig)
    (tools : List ToolStatus) (isLast : Bool) (x : String) (hx : x ≠ c.id) :
    (sweepTarget b n c tools isLast).1.find? (fun t => t.id == x) =
      tools.find? (fun t => t.id == x) := by
  cases hb : b c.id with
  | returns r =>
    simp only [sweepTarget, hb]
    exact find?_updateTools_ne tools _ x hx
  | throws m =>
    simp only [sweepTarget, hb]
    exact find?_catchUpdate_ne tools c.id n m x hx

/-- A whole sweep preserves the list of stored ids whenever every swept id is
already stored. -/
theorem map_id_checkAllToolsAux (b : String → TargetBehavior) (n : Nat) :
    ∀ (cfgs : List ToolConfig) (tools : List ToolStatus),
    (∀ c ∈ cfgs, tools.any (fun t => t.id == c.id) = true) →
    (checkAllToolsAux b n cfgs tools).1.map ToolStatus.id = tools.map ToolStatus.id := by
  intro cfgs
  induction cfgs with
  | nil => intro tools _; rfl
  | cons c rest ih =>
    intro tools h
    have hc := h c (List.mem_cons_self c rest)
    have hstep := map_id_sweepTarget b n c tools rest.isEmpty hc
    have hrest : ∀ c' ∈ rest,
        (sweepTarget b n c tools rest.isEmpty).1.any (fun t => t.id == c'.id) = true := by
      intro c' hc'
      rw [any_id_eq_of_map_id_eq _ tools c'.id hstep]
      exact h c' (List.mem_cons_of_mem c hc')
    simp only [checkAllToolsAux]
    rw [ih _ hrest, hstep]

/-- A sweep over targets none of which has id `x` does not touch the record
stored under `x`. -/
theorem find?_checkAllToolsAux_ne (b : String → TargetBehavior) (n : Nat) :
    ∀ (cfgs : List ToolConfig) (tools : List ToolStatus) (x : String),
    (∀ c ∈ cfgs, x ≠ c.id) →
    (checkAllToolsAux b n cfgs tools).1.find? (fun t => t.id == x) =
      tools.find? (fun t => t.id == x) := by
  intro cfgs
  induction cfgs with
  | nil => intro tools x _; rfl
  | cons c rest ih =>
    intro tools x h
    simp only [checkAllToolsAux]
    rw [ih _ x (fun c' hc' => h c' (List.mem_cons_of_mem c hc'))]
    exact find?_sweepTarget_ne b n c tools rest.isEmpty x (h c (List.mem_cons_self c rest))

/-- The block labels of a sweep are exactly the swept target ids, in order. -/
theorem blocks_ids_checkAllToolsAux (b : String → TargetBehavior) (n : Nat) :
    ∀ (cfgs : List ToolConfig) (tools : List ToolStatus),
    (checkAllToolsAux b n cfgs tools).2.map Prod.fst = cfgs.map ToolConfig.id := by
  intro cfgs
  induction cfgs with
  | nil => intro tools; rfl
  | cons c rest ih =>
    intro tools
    simp only [checkAllToolsAux, List.map_cons]
    rw [ih]

/-- The record a sweep leaves under a swept target's id is a function of that
target's behaviour alone: the real outcome written as a fresh record on the
`returns` path, and the catch-path copy of the record the sweep started with
on the `throws` path. -/
theorem find?_checkAllToolsAux_eq (b : String → TargetBehavior) (n : Nat) :
    ∀ (cfgs : List ToolConfig) (tools : List ToolStatus) (cfg : ToolConfig),
    cfg ∈ cfgs →
    (cfgs.map ToolConfig.id).Nodup →
    (∀ c ∈ cfgs, tools.any (fun t => t.id == c.id) = true) →
    (checkAllToolsAux b n cfgs tools).1.find? (fun t => t.id == cfg.id) =
      (match b cfg.id with
       | TargetBehavior.returns r =>
         some ⟨cfg.id, cfg.name, r.status, n, r.latencyMs, r.error⟩
       | TargetBehavior.throws msg =>
         (tools.find? (fun t => t.id == cfg.id)).map (fun old => catchRecord old n msg)) := by
  intro cfgs
  induction cfgs with
  | nil =>
    intro tools cfg hmem
    simp at hmem
  | cons c rest ih =>
    intro tools cfg hmem hnodup hpresent
    rcases List.mem_cons.mp hmem with rfl | hmem'
    · simp only [checkAllToolsAux]
      have hxne : ∀ c' ∈ rest, cfg.id ≠ c'.id := by
        intro c' hc' heq
        exact (List.nodup_cons.mp hnodup).1 (heq ▸ List.mem_map_of_mem ToolConfig.id hc')
      rw [find?_checkAllToolsAux_ne b n rest _ cfg.id hxne]
      cases hb : b cfg.id with
      | returns r =>
        simp only [sweepTarget, hb]
        exact find?_updateTools_self tools
          ⟨cfg.id, cfg.name, r.status, n, r.latencyMs, r.error⟩
      | throws m =>
        simp only [sweepTarget, hb]
        have hany := hpresent cfg (List.mem_cons_self cfg rest)
        obtain ⟨old, hold⟩ : ∃ old, tools.find? (fun t => t.id == cfg.id) = some old := by
          cases hfo : tools.find? (fun t => t.id == cfg.id) with
          | some o => exact ⟨o, rfl⟩
          | none =>
            exfalso
            rcases List.any_eq_true.mp hany with ⟨t, htmem, htp⟩
            exact absurd htp (by simpa using List.find?_eq_none.mp hfo t htmem)
        rw [hold]
        exact find?_catchUpdate_self tools cfg.id n m old hold
    · have hcneq : cfg.id ≠ c.id := by
        intro heq
        exact (List.nodup_cons.mp hnodup).1 (heq ▸ List.mem_map_of_mem ToolConfig.id hmem')
      have hc := hpresent c (List.mem_cons_self c rest)
      have hstep := map_id_sweepTarget b n c tools rest.isEmpty hc
      have hpresent1 : ∀ c' ∈ rest,
          (sweepTarget b n c tools rest.isEmpty).1.any (fun t => t.id == c'.id) = true := by
        intro c' hc'
        rw [any_id_eq_of_map_id_eq _ tools c'.id hstep]
        exact hpresent c' (List.mem_cons_of_mem c hc')
      simp only [checkAllToolsAux]
      rw [ih _ cfg hmem' (List.nodup_cons.mp hnodup).2 hpresent1]
      cases hb : b cfg.id with
      | returns r => rfl
      | throws m =>
        rw [find?_sweepTarget_ne b n c tools rest.isEmpty cfg.id hcneq]

/-- Flipping the source's `latencyMs > 2000 ? degraded : healthy` into the
claim's `healthy if elapsed <= 2000 else degraded` form. -/
theorem latency_gate_flip (e : Nat) :
    (if e > 2000 then Verdict.degraded else Verdict.healthy) =
      (if e ≤ 2000 then Verdict.healthy else Verdict.degraded) := by
  rcases le_or_lt e 2000 with h | h
  · rw [if_neg (by omega), if_pos h]
  · rw [if_pos h, if_neg (by omega)]

/-- C1: on a completed 2xx response whose body parses with a
`status.indicator` field, the classifier maps `none` to healthy when elapsed
is at most 2000 ms and degraded otherwise; `minor` and `partial` to degraded
with the description or the respective fixed fallback phrase; `major` and
`critical` to down with the description or `"Service status: <indicator>"`;
any other or missing indicator to healthy/degraded by the same latency gate;
and the measured latency is reported in every 2xx case. -/
theorem claim_C1_indicator_mapping (s e : Nat) (ind : Option String) (desc : String)
    (h1 : 200 ≤ s) (h2 : s ≤ 299) :
    (ind = some "none" →
      classifyResponse s e (Body.parsed ind desc) =
        ⟨if e ≤ 2000 then Verdict.healthy else Verdict.degraded, some e, none⟩) ∧
    (ind = some "minor" →
      classifyResponse s e (Body.parsed ind desc) =
        ⟨Verdict.degraded, some e,
          some (if desc = "" then "Minor service outage" else desc)⟩) ∧
    (ind = some "partial" →
      classifyResponse s e (Body.parsed ind desc) =
        ⟨Verdict.degraded, some e,
          some (if desc = "" then "Partial outage detected" else desc)⟩) ∧
    ((ind = some "major" ∨ ind = some "critical") →
      classifyResponse s e (Body.parsed ind desc) =
        ⟨Verdict.down, some e,
          some (if desc = "" then "Service status: " ++ ind.getD "" else desc)⟩) ∧
    ((ind ≠ some "none" ∧ ind ≠ some "minor" ∧ ind ≠ some "partial" ∧
        ind ≠ some "major" ∧ ind ≠ some "critical") →
      classifyResponse s e (Body.parsed ind desc) =
        ⟨if e ≤ 2000 then Verdict.healthy else Verdict.degraded, some e, none⟩) ∧
    (classifyResponse s e (Body.parsed ind desc)).latencyMs = some e := by
  refine ⟨?_, ?_, ?_, ?_, ?_, ?_⟩
  · rintro rfl
    simp [classifyResponse, h1, h2, latency_gate_flip]
  · rintro rfl
    simp [classifyResponse, h1, h2]
  · rintro rfl
    simp [classifyResponse, h1, h2]
  · rintro (rfl | rfl) <;> simp [classifyResponse, h1, h2]
  · rintro ⟨hn, hm, hp, hj, hc⟩
    simp [classifyResponse, h1, h2, hn, hm, hp, hj, hc, latency_gate_flip]
  · simp only [classifyResponse, if_pos (And.intro h1 h2)]
    split_ifs <;> rfl

/-- Witness for C1 at a concrete 2xx response with indicator `none` and
elapsed 100 ms. -/
theorem claim_C1_indicator_mapping_witness :
    200 ≤ 200 ∧ 200 ≤ 299 ∧
    classifyResponse 200 100 (Body.parsed (some "none") "") =
      ⟨Verdict.healthy, some 100, none⟩ :=
  ⟨by decide, by decide,
    ((claim_C1_indicator_mapping 200 100 (some "none") "" (by decide) (by decide)).1
        rfl).trans (by decide)⟩

/-- C2: a completed 429 response is classified degraded with diagnostic
"Rate limited - too many requests" and never down; a completed response with
status at least 500 is classified down with diagnostic
`"Server error: <status>"` and never degraded or healthy. -/
theorem claim_C2_rate_limit_and_server_error (s e : Nat) (body : Body) (h : 500 ≤ s) :
    (classifyResponse 429 e body =
        ⟨Verdict.degraded, some e, some "Rate limited - too many requests"⟩ ∧
      (classifyResponse 429 e body).status ≠ Verdict.down) ∧
    (classifyResponse s e body =
        ⟨Verdict.down, some e, some ("Server error: " ++ toString s)⟩ ∧
      (classifyResponse s e body).status ≠ Verdict.degraded ∧
      (classifyResponse s e body).status ≠ Verdict.healthy) := by
  have hr : classifyResponse 429 e body =
      ⟨Verdict.degraded, some e, some "Rate limited - too many requests"⟩ := by
    simp [classifyResponse]
  have hs : classifyResponse s e body =
      ⟨Verdict.down, some e, some ("Server error: " ++ toString s)⟩ := by
    have hnok : ¬(200 ≤ s ∧ s ≤ 299) := by omega
    have hne : ¬(s = 429) := by omega
    simp only [classifyResponse, if_neg hnok, if_neg hne, if_pos h]
  exact ⟨⟨hr, by rw [hr]; simp⟩, hs, by rw [hs]; simp, by rw [hs]; simp⟩

/-- Witness for C2 at status 503. -/
theorem claim_C2_rate_limit_and_server_error_witness :
    500 ≤ 503 ∧
    classifyResponse 429 100 Body.parseError =
      ⟨Verdict.degraded, some 100, some "Rate limited - too many requests"⟩ ∧
    classifyResponse 503 100 Body.parseError =
      ⟨Verdict.down, some 100, some "Server error: 503"⟩ :=
  ⟨by decide,
    (claim_C2_rate_limit_and_server_error 503 100 Body.parseError (by decide)).1.1,
    ((claim_C2_rate_limit_and_server_error 503 100 Body.parseError
        (by decide)).2.1).trans (by decide)⟩

/-- C3: a 2xx response whose body fails to parse yields verdict unknown,
diagnostic "Failed to parse status API response", latency equal to the
measured elapsed time, and the call returns after that single attempt with
no retry and no backoff delay. -/
theorem claim_C3_parse_failure_unknown (attempt : Nat → Attempt)
    (retryCount retriesLeft s e : Nat)
    (ha : attempt retryCount = Attempt.completed s e Body.parseError)
    (h1 : 200 ≤ s) (h2 : s ≤ 299) :
    checkToolStatusGo attempt retryCount retriesLeft =
      (⟨Verdict.unknown, some e, some "Failed to parse status API response"⟩,
        [PollEvent.attemptEv retryCount]) := by
  rw [checkToolStatusGo, ha]
  simp [classifyResponse, h1, h2]

/-- Witness for C3: a single 200 response with an unparsable body. -/
theorem claim_C3_parse_failure_unknown_witness :
    (fun _ => Attempt.completed 200 150 Body.parseError : Nat → Attempt) 0 =
        Attempt.completed 200 150 Body.parseError ∧
    checkToolStatusGo (fun _ => Attempt.completed 200 150 Body.parseError) 0 MAX_RETRIES =
      (⟨Verdict.unknown, some 150, some "Failed to parse status API response"⟩,
        [PollEvent.attemptEv 0]) :=
  ⟨rfl, claim_C3_parse_failure_unknown (fun _ => Attempt.completed 200 150 Body.parseError)
    0 MAX_RETRIES 200 150 rfl (by decide) (by decide)⟩

/-- C4: whenever an attempt yields a completed HTTP response — any status
code, any body — the call returns its classification immediately after that
single attempt, with no retry and no backoff delay. -/
theorem claim_C4_no_retry_on_completed (attempt : Nat → Attempt)
    (retryCount retriesLeft s e : Nat) (body : Body)
    (ha : attempt retryCount = Attempt.completed s e body) :
    checkToolStatusGo attempt retryCount retriesLeft =
      (classifyResponse s e body, [PollEvent.attemptEv retryCount]) := by
  rw [checkToolStatusGo, ha]

/-- Witness for C4 at a completed 429 response. -/
theorem claim_C4_no_retry_on_completed_witness :
    (fun _ => Attempt.completed 429 80 Body.parseError : Nat → Attempt) 0 =
        Attempt.completed 429 80 Body.parseError ∧
    checkToolStatusGo (fun _ => Attempt.completed 429 80 Body.parseError) 0 MAX_RETRIES =
      (classifyResponse 429 80 Body.parseError, [PollEvent.attemptEv 0]) :=
  ⟨rfl, claim_C4_no_retry_on_completed (fun _ => Attempt.completed 429 80 Body.parseError)
    0 MAX_RETRIES 429 80 Body.parseError rfl⟩

/-- C5: a full `checkToolStatus` run performs at most 3 attempts (at most 2
retries) and its event trace is one of exactly three shapes: one attempt; or
two attempts separated by a 1000 ms delay; or three attempts with a 1000 ms
delay before the first retry and a 2000 ms delay before the second — so the
backoff delays are strictly increasing, each delay sits immediately before
the retry it precedes, and no delay follows the final attempt. -/
theorem claim_C5_retry_schedule (attempt : Nat → Attempt) :
    (checkToolStatus attempt).2 = [PollEvent.attemptEv 0] ∨
    (checkToolStatus attempt).2 =
      [PollEvent.attemptEv 0, PollEvent.delayEv 1000, PollEvent.attemptEv 1] ∨
    (checkToolStatus attempt).2 =
      [PollEvent.attemptEv 0, PollEvent.delayEv 1000, PollEvent.attemptEv 1,
        PollEvent.delayEv 2000, PollEvent.attemptEv 2] := by
  unfold checkToolStatus MAX_RETRIES
  rcases h0 : attempt 0 with _ | m0
  · left
    rw [checkToolStatusGo, h0]
  · rcases h1 : attempt 1 with _ | m1
    · right; left
      rw [checkToolStatusGo, h0]
      simp only []
      rw [checkToolStatusGo, h1]
    · rcases h2 : attempt 2 with _ | m2
      · right; right
        rw [checkToolStatusGo, h0]
        simp only []
        rw [checkToolStatusGo, h1]
        simp only []
        rw [checkToolStatusGo, h2]
      · right; right
        rw [checkToolStatusGo, h0]
        simp only []
        rw [checkToolStatusGo, h1]
        simp only []
        rw [checkToolStatusGo, h2]

/-- C6: when all three attempts raise transport failures, the final outcome
has null latency; it is degraded when the classified text of the most recent
failure mentions rate limiting or 429 and down otherwise, with the diagnostic
equal to that classified text — "Request timeout" when the raw message
mentions aborted/timeout, "Connection failed" when it mentions
ECONNREFUSED/ENOTFOUND, and the raw message otherwise. -/
theorem claim_C6_exhaustion (attempt : Nat → Attempt) (m0 m1 m2 : String)
    (h0 : attempt 0 = Attempt.failed m0) (h1 : attempt 1 = Attempt.failed m1)
    (h2 : attempt 2 = Attempt.failed m2) :
    (checkToolStatus attempt).1.latencyMs = none ∧
    (checkToolStatus attempt).1 =
      (if strIncludes (classifyErrorMessage m2) "Rate limited" ||
          strIncludes (classifyErrorMessage m2) "429" then
        ⟨Verdict.degraded, none, some (classifyErrorMessage m2)⟩
      else ⟨Verdict.down, none, some (classifyErrorMessage m2)⟩) ∧
    ((strIncludes m2 "aborted" || strIncludes m2 "timeout") = true →
      classifyErrorMessage m2 = "Request timeout") ∧
    ((strIncludes m2 "aborted" || strIncludes m2 "timeout") = false →
      (strIncludes m2 "ECONNREFUSED" || strIncludes m2 "ENOTFOUND") = true →
      classifyErrorMessage m2 = "Connection failed") ∧
    ((strIncludes m2 "aborted" || strIncludes m2 "timeout") = false →
      (strIncludes m2 "ECONNREFUSED" || strIncludes m2 "ENOTFOUND") = false →
      classifyErrorMessage m2 = m2) := by
  have hrun : (checkToolStatus attempt).1 = exhaustedOutcome (classifyErrorMessage m2) := by
    unfold checkToolStatus MAX_RETRIES
    rw [checkToolStatusGo, h0]
    simp only []
    rw [checkToolStatusGo, h1]
    simp only []
    rw [checkToolStatusGo, h2]
  refine ⟨?_, ?_, ?_, ?_, ?_⟩
  · rw [hrun, exhaustedOutcome]
    split <;> rfl
  · rw [hrun, exhaustedOutcome]
  · intro hcase
    rw [classifyErrorMessage, hcase]
    rfl
  · intro hcase1 hcase2
    rw [classifyErrorMessage, hcase1, hcase2]
    rfl
  · intro hcase1 hcase2
    rw [classifyErrorMessage, hcase1, hcase2]
    rfl

/-- A stored id admits a stored record. -/
theorem exists_find?_of_any (tools : List ToolStatus) (x : String)
    (h : tools.any (fun t => t.id == x) = true) :
    ∃ old, tools.find? (fun t => t.id == x) = some old := by
  cases hfo : tools.find? (fun t => t.id == x) with
  | some o => exact ⟨o, rfl⟩
  | none =>
    exfalso
    rcases List.any_eq_true.mp h with ⟨t, htmem, htp⟩
    exact absurd htp (by simpa using List.find?_eq_none.mp hfo t htmem)

/-- A final sweep iteration emits no pacing delay. -/
theorem sweepTarget_pacing_last (b : String → TargetBehavior) (n : Nat) (c : ToolConfig)
    (tools : List ToolStatus) :
    (sweepTarget b n c tools true).2.countP isPacingEv = 0 := by
  cases hb : b c.id with
  | returns r =>
    simp only [sweepTarget, hb]
    split_ifs <;> simp_all [isPacingEv]
  | throws m =>
    simp only [sweepTarget, hb]
    simp [isPacingEv]

/-- A non-final sweep iteration whose poll resolves emits exactly one pacing
delay, of `CHECK_DELAY_MS`, as its last event. -/
theorem sweepTarget_pacing_returns (b : String → TargetBehavior) (n : Nat) (c : ToolConfig)
    (tools : List ToolStatus) (r : PollOutcome) (hb : b c.id = TargetBehavior.returns r) :
    (sweepTarget b n c tools false).2.countP isPacingEv = 1 ∧
    (sweepTarget b n c tools false).2.getLast? =
      some (SweepEvent.pacingDelay CHECK_DELAY_MS) := by
  constructor
  · simp only [sweepTarget, hb]
    split_ifs <;> simp_all [isPacingEv]
  · simp only [sweepTarget, hb, Bool.false_eq_true, ite_false, ← List.cons_append]
    exact List.getLast?_concat _

/-- A sweep iteration whose poll throws emits no pacing delay: the
`await delay(CHECK_DELAY_MS)` sits inside the `try`, so the catch path skips
it even when further targets follow. -/
theorem sweepTarget_pacing_throws (b : String → TargetBehavior) (n : Nat) (c : ToolConfig)
    (tools : List ToolStatus) (isLast : Bool) (m : String)
    (hb : b c.id = TargetBehavior.throws m) :
    (sweepTarget b n c tools isLast).2.countP isPacingEv = 0 := by
  simp only [sweepTarget, hb]
  simp [isPacingEv]

/-- Every sweep satisfies the pacing discipline of `PacingSpec`. -/
theorem pacingSpec_checkAllToolsAux (b : String → TargetBehavior) (n : Nat) :
    ∀ (cfgs : List ToolConfig) (tools : List ToolStatus),
    PacingSpec b (checkAllToolsAux b n cfgs tools).2 := by
  intro cfgs
  induction cfgs with
  | nil => intro tools; trivial
  | cons c rest ih =>
    intro tools
    cases rest with
    | nil =>
      simp only [checkAllToolsAux, PacingSpec, List.isEmpty_nil]
      exact sweepTarget_pacing_last b n c tools
    | cons c2 rest2 =>
      simp only [checkAllToolsAux, PacingSpec, List.isEmpty_cons]
      refine ⟨?_, ih _⟩
      cases hb : b c.id with
      | returns r => exact sweepTarget_pacing_returns b n c tools r hb
      | throws m => exact sweepTarget_pacing_throws b n c tools false m hb

/-- Witness for C6: three connection-refused failures end in verdict down
with null latency and diagnostic "Connection failed". -/
theorem claim_C6_exhaustion_witness :
    (fun _ => Attempt.failed "connect ECONNREFUSED 127.0.0.1:443" : Nat → Attempt) 0 =
        Attempt.failed "connect ECONNREFUSED 127.0.0.1:443" ∧
    (checkToolStatus (fun _ => Attempt.failed "connect ECONNREFUSED 127.0.0.1:443")).1 =
      ⟨Verdict.down, none, some "Connection failed"⟩ :=
  ⟨rfl,
    ((claim_C6_exhaustion (fun _ => Attempt.failed "connect ECONNREFUSED 127.0.0.1:443")
        "connect ECONNREFUSED 127.0.0.1:443" "connect ECONNREFUSED 127.0.0.1:443"
        "connect ECONNREFUSED 127.0.0.1:443" rfl rfl rfl).2.1).trans (by decide)⟩

/-- C7 counterexample: with the first target's poll throwing, the sweep still
visits all three targets in registry order, but the first target's iteration
— which is not the last — contains no pacing delay, because the
`await delay(CHECK_DELAY_MS)` sits inside the `try` and the catch path skips
it. The claim that the delay is skipped only after the last target is
therefore false. -/
theorem claim_C7_counterexample :
    (checkAllToolsStatus throwsFirstBehavior 5 (initialTools 0)).2.map Prod.fst =
        ["chatgpt", "claude", "cursor"] ∧
    (checkAllToolsStatus throwsFirstBehavior 5 (initialTools 0)).2.map
        (fun blk => blk.2.countP isPacingEv) = [0, 1, 0] :=
  ⟨by decide, by decide⟩

/-- C7 (amended): every sweep visits all targets in the fixed registry order,
and each non-final iteration whose poll completed without throwing ends with
exactly one 2000 ms pacing delay as its last event, so the delay falls before
the next target's poll; the delay is skipped after the last target and after
a target whose poll threw. -/
theorem claim_C7_amended_pacing (behavior : String → TargetBehavior) (now : Nat)
    (tools : List ToolStatus) :
    (checkAllToolsStatus behavior now tools).2.map Prod.fst =
        toolConfigs.map ToolConfig.id ∧
    PacingSpec behavior (checkAllToolsStatus behavior now tools).2 :=
  ⟨blocks_ids_checkAllToolsAux behavior now toolConfigs tools,
   pacingSpec_checkAllToolsAux behavior now toolConfigs tools⟩

/-- C8: on every sweep over a store holding every registry id, every target
receives a store update: a target whose poll throws gets its record replaced
by a copy marked unknown with the failure message, and every target whose
poll resolves gets its real outcome written, regardless of what happened to
the other targets. -/
theorem claim_C8_per_target_updates (behavior : String → TargetBehavior) (now : Nat)
    (tools : List ToolStatus)
    (hpresent : ∀ c ∈ toolConfigs, tools.any (fun t => t.id == c.id) = true) :
    ∀ cfg ∈ toolConfigs,
      (∀ msg, behavior cfg.id = TargetBehavior.throws msg →
        ∃ old, tools.find? (fun t => t.id == cfg.id) = some old ∧
          (checkAllToolsStatus behavior now tools).1.find? (fun t => t.id == cfg.id) =
            some (catchRecord old now msg)) ∧
      (∀ r, behavior cfg.id = TargetBehavior.returns r →
        (checkAllToolsStatus behavior now tools).1.find? (fun t => t.id == cfg.id) =
          some ⟨cfg.id, cfg.name, r.status, now, r.latencyMs, r.error⟩) := by
  intro cfg hmem
  have hnodup : (toolConfigs.map ToolConfig.id).Nodup := by decide
  have h := find?_checkAllToolsAux_eq behavior now toolConfigs tools cfg hmem hnodup hpresent
  constructor
  · intro msg hb
    rw [hb] at h
    obtain ⟨old, hold⟩ := exists_find?_of_any tools cfg.id (hpresent cfg hmem)
    refine ⟨old, hold, ?_⟩
    have h' : (checkAllToolsStatus behavior now tools).1.find? (fun t => t.id == cfg.id) =
        (tools.find? (fun t => t.id == cfg.id)).map (fun o => catchRecord o now msg) := h
    rw [h', hold]
    rfl
  · intro r hb
    rw [hb] at h
    exact h

/-- Witness for C8: claude's poll throws while chatgpt and cursor resolve;
claude's record becomes unknown with the failure message and cursor still
receives its real outcome. -/
theorem claim_C8_per_target_updates_witness :
    (∃ old, (initialTools 0).find? (fun t => t.id == "claude") = some old ∧
      (checkAllToolsStatus throwsClaudeBehavior 7 (initialTools 0)).1.find?
          (fun t => t.id == "claude") =
        some (catchRecord old 7 "claude poll blew up")) ∧
    (checkAllToolsStatus throwsClaudeBehavior 7 (initialTools 0)).1.find?
        (fun t => t.id == "cursor") =
      some ⟨"cursor", "Cursor", Verdict.healthy, 7, some 120, none⟩ := by
  have h := claim_C8_per_target_updates throwsClaudeBehavior 7 (initialTools 0) (by decide)
  constructor
  · exact (h ⟨"claude", "Claude", "https://status.claude.com/api/v2/status.json"⟩
      (by decide)).1 "claude poll blew up" (by decide)
  · exact (h ⟨"cursor", "Cursor", "https://status.cursor.com/api/v2/status.json"⟩
      (by decide)).2 ⟨Verdict.healthy, some 120, none⟩ (by decide)

/-- C9 counterexample: after one sweep of always-down polls, the stored
verdict for chatgpt is already down, yet the next sweep's chatgpt iteration
still emits the status-update event, the error log and the down report —
whose recorded previous status equals the new verdict. Telemetry is surfaced
with the verdict unchanged, refuting the claim that a transition event is
surfaced only when the verdict differs from its previous value. -/
theorem claim_C9_counterexample :
    (storeAfterDownSweep.find? (fun t => t.id == "chatgpt")).map ToolStatus.status =
        some Verdict.down ∧
    (checkAllToolsStatus alwaysDownBehavior 2 storeAfterDownSweep).2.head?.map Prod.snd =
      some [SweepEvent.statusUpdateEvent "chatgpt" Verdict.down 100 true,
        SweepEvent.errorLogEvent "chatgpt",
        SweepEvent.toolDownError "chatgpt" Verdict.down,
        SweepEvent.pacingDelay 2000] :=
  ⟨by decide, by decide⟩

/-- C9 (amended): telemetry is emitted per poll with no change detection: on
every sweep iteration whose poll resolves, the status-update event is emitted
unconditionally; the error log is emitted exactly when the verdict is down or
a diagnostic is present; the down report is emitted exactly when the verdict
is down, and then carries the target's previous stored verdict — no event is
conditioned on the verdict differing from its previous value. -/
theorem claim_C9_amended_telemetry (behavior : String → TargetBehavior) (now : Nat)
    (cfg : ToolConfig) (tools : List ToolStatus) (isLast : Bool) (r : PollOutcome)
    (hb : behavior cfg.id = TargetBehavior.returns r) :
    (SweepEvent.statusUpdateEvent cfg.id r.status (r.latencyMs.getD 0) r.error.isSome ∈
        (sweepTarget behavior now cfg tools isLast).2) ∧
    ((SweepEvent.errorLogEvent cfg.id ∈ (sweepTarget behavior now cfg tools isLast).2) ↔
      (r.status = Verdict.down ∨ r.error.isSome = true)) ∧
    ((∃ prev, SweepEvent.toolDownError cfg.id prev ∈
        (sweepTarget behavior now cfg tools isLast).2) ↔ r.status = Verdict.down) ∧
    (r.status = Verdict.down →
      SweepEvent.toolDownError cfg.id
          (((tools.find? (fun t => t.id == cfg.id)).map ToolStatus.status).getD
            Verdict.unknown) ∈ (sweepTarget behavior now cfg tools isLast).2) := by
  simp only [sweepTarget, hb]
  refine ⟨List.mem_cons_self _ _, ?_, ?_, ?_⟩
  · split_ifs with h1 h2 <;> simp [List.mem_cons, List.mem_append, h1]
  · split_ifs with h1 h2 <;> simp_all [List.mem_cons, List.mem_append]
  · intro hdown
    have h1 : r.status = Verdict.down ∨ r.error.isSome = true := Or.inl hdown
    simp [h1, hdown, List.mem_cons, List.mem_append]

/-- Witness for C9 (amended) at a concrete down poll of chatgpt over the
initial store. -/
theorem claim_C9_amended_telemetry_witness :
    SweepEvent.statusUpdateEvent "chatgpt" Verdict.down 100 true ∈
      (sweepTarget alwaysDownBehavior 2
        ⟨"chatgpt", "ChatGPT", "https://status.openai.com/api/v2/status.json"⟩
        (initialTools 0) false).2 ∧
    SweepEvent.toolDownError "chatgpt" Verdict.unknown ∈
      (sweepTarget alwaysDownBehavior 2
        ⟨"chatgpt", "ChatGPT", "https://status.openai.com/api/v2/status.json"⟩
        (initialTools 0) false).2 := by
  have h := claim_C9_amended_telemetry alwaysDownBehavior 2
    ⟨"chatgpt", "ChatGPT", "https://status.openai.com/api/v2/status.json"⟩
    (initialTools 0) false ⟨Verdict.down, some 100, some "boom"⟩ (by decide)
  have harg : (((initialTools 0).find? (fun t => t.id == "chatgpt")).map
      ToolStatus.status).getD Verdict.unknown = Verdict.unknown := by decide
  exact ⟨h.1, harg ▸ h.2.2.2 rfl⟩

/-- C10: the store holds exactly one record per configured target at all
times: the initial store carries exactly the registry ids in registry order
(a duplicate-free list), each record unknown with null latency and the start
timestamp; the success-path write, the catch-path write and a whole sweep all
preserve the stored id list exactly (replacement in place — no duplicate
added, no record deleted); and the catch-path write replaces the affected
record by a copy changing only verdict, timestamp and diagnostic, every
record keeping the identifier, display name and latency of a record of the
previous store. -/
theorem claim_C10_store_invariants (behavior : String → TargetBehavior)
    (startTime now : Nat) (tools : List ToolStatus) (u : ToolStatus)
    (cid msg : String) (old : ToolStatus)
    (hu : tools.any (fun t => t.id == u.id) = true)
    (hpresent : ∀ c ∈ toolConfigs, tools.any (fun t => t.id == c.id) = true)
    (hold : tools.find? (fun t => t.id == cid) = some old) :
    ((initialTools startTime).map ToolStatus.id = toolConfigs.map ToolConfig.id ∧
      ((initialTools startTime).map ToolStatus.id).Nodup ∧
      ∀ rec ∈ initialTools startTime,
        rec.status = Verdict.unknown ∧ rec.latencyMs = none ∧
          rec.lastChecked = startTime) ∧
    (updateTools tools u).map ToolStatus.id = tools.map ToolStatus.id ∧
    (catchUpdate tools cid now msg).map ToolStatus.id = tools.map ToolStatus.id ∧
    (checkAllToolsStatus behavior now tools).1.map ToolStatus.id =
      tools.map ToolStatus.id ∧
    (catchUpdate tools cid now msg).find? (fun t => t.id == cid) =
      some (catchRecord old now msg) ∧
    (∀ rec ∈ catchUpdate tools cid now msg, ∃ rec0, rec0 ∈ tools ∧
      rec.id = rec0.id ∧ rec.name = rec0.name ∧ rec.latencyMs = rec0.latencyMs) := by
  refine ⟨⟨rfl, ?_, ?_⟩, ?_, ?_, ?_, ?_, ?_⟩
  · rw [show (initialTools startTime).map ToolStatus.id =
      ["chatgpt", "claude", "cursor"] from rfl]
    decide
  · intro rec hrec
    fin_cases hrec <;> exact ⟨rfl, rfl, rfl⟩
  · exact map_id_updateTools tools u hu
  · exact map_id_catchUpdate tools cid now msg
  · exact map_id_checkAllToolsAux behavior now toolConfigs tools hpresent
  · exact find?_catchUpdate_self tools cid now msg old hold
  · exact mem_catchUpdate_shape tools cid now msg

/-- Witness for C10 at the initial store with a concrete success update for
claude and a concrete catch update for cursor. -/
theorem claim_C10_store_invariants_witness :
    (updateTools (initialTools 3)
        ⟨"claude", "Claude", Verdict.healthy, 9, some 10, none⟩).map ToolStatus.id =
      (initialTools 3).map ToolStatus.id ∧
    (catchUpdate (initialTools 3) "cursor" 9 "boom").find? (fun t => t.id == "cursor") =
      some (catchRecord ⟨"cursor", "Cursor", Verdict.unknown, 3, none, none⟩ 9 "boom") := by
  have h := claim_C10_store_invariants
    (fun _ => TargetBehavior.returns ⟨Verdict.healthy, some 1, none⟩) 3 9
    (initialTools 3) ⟨"claude", "Claude", Verdict.healthy, 9, some 10, none⟩
    "cursor" "boom" ⟨"cursor", "Cursor", Verdict.unknown, 3, none, none⟩
    (by decide) (by decide) (by decide)
  exact ⟨h.2.1, h.2.2.2.2.1⟩

end TsMonitor
